import Mathlib

/-!
# pneuma: a verification development for `pneuma.go`

Shallow embedding of the functions of `pneuma.go` (package `main`) and the
properties established about them.  Go `string` values are Lean `String`s
(character lists where a function walks the text), Go `int` is `Int`/`Nat`
with the 64-bit wrap made explicit where it can matter, a Go `panic` is the
error side of `Except`, and the terminal is an explicit `World` value that
is passed through the calls that touch it.
-/

namespace Pneuma

/-! ## Data model -/

/-- HugoSite contains the information for a hugo site listed in the config. -/
structure HugoSite where
  Name : String
  Path : String
deriving DecidableEq, Repr

/-- PneumaConfig, the decoded content of the configuration file. -/
structure PneumaConfig where
  Extension : String
  Editor : String
  Sites : List HugoSite
deriving DecidableEq, Repr

/-- Modelled from the spec: the type `hugo.Post` of package `pkg/data/hugo`,
a content item with display title, ISO-8601 timestamp, draft flag and storage
path; the fields are the ones `pneuma.go` reads. -/
structure Post where
  Title : String
  Date : String
  Draft : Bool
  Path : String
deriving DecidableEq, Repr

/-- Modelled from the spec: the type `hugo.Blog` of package `pkg/data/hugo`,
of which `pneuma.go` reads the field `Posts`. -/
structure Blog where
  Posts : List Post
deriving DecidableEq, Repr

/-! ## Go library: package `time`, layout `RFC3339`, and `Format` -/

/-- Go `time.Time` as `Format` observes it: the wall-clock fields in the
location of the value, and the offset of that location in seconds. -/
structure Time where
  year : Nat
  month : Nat
  day : Nat
  hour : Nat
  min : Nat
  sec : Nat
  nsec : Nat
  zoneOffset : Int
deriving DecidableEq, Repr

/-- The zero `Time`, January 1, year 1, 00:00:00 UTC: what `time.Parse`
returns together with an error. -/
def Time.zero : Time :=
  { year := 1, month := 1, day := 1, hour := 0, min := 0, sec := 0, nsec := 0, zoneOffset := 0 }

/-- Go `isDigit` on one byte. -/
def isDig (c : Char) : Bool := decide (48 ≤ c.toNat) && decide (c.toNat ≤ 57)

/-- Value of a digit byte, `int(c - '0')`. -/
def digVal (c : Char) : Nat := c.toNat - 48

/-- Go `time.getnum`: a one- or two-digit number; two digits are required
when `fixed`. -/
def getnum : List Char → Bool → Option (Nat × List Char)
  | [], _ => none
  | [c0], fixed =>
    if isDig c0 then (if fixed then none else some (digVal c0, [])) else none
  | c0 :: c1 :: rest, fixed =>
    if isDig c0 then
      if isDig c1 then some (digVal c0 * 10 + digVal c1, rest)
      else if fixed then none else some (digVal c0, c1 :: rest)
    else none

/-- Go `time.skip` for a one-byte literal of the layout that is not a space. -/
def skipLit (c : Char) : List Char → Option (List Char)
  | [] => none
  | v :: rest => if v = c then some rest else none

/-- The `stdLongYear` case of `time.parse`: four bytes, all digits. -/
def getYear : List Char → Option (Nat × List Char)
  | c0 :: c1 :: c2 :: c3 :: rest =>
    if isDig c0 && isDig c1 && isDig c2 && isDig c3 then
      some (digVal c0 * 1000 + digVal c1 * 100 + digVal c2 * 10 + digVal c3, rest)
    else none
  | _ => none

/-- Go `time.commaOrPeriod`. -/
def commaOrPeriod (c : Char) : Bool := c = '.' || c = ','

/-- Digits-to-number, most significant first. -/
def digitsVal (ds : List Char) : Nat := ds.foldl (fun acc c => acc * 10 + digVal c) 0

/-- Go `time.parseNanoseconds` on the digits that follow the separator: at
most nine digits count, scaled to nanoseconds. -/
def parseNanoseconds (ds : List Char) : Nat :=
  let kept := ds.take 9
  digitsVal kept * 10 ^ (9 - kept.length)

/-- The fractional second that `time.parse` accepts after the seconds field
although the layout has none: a comma or period and at least one digit. -/
def getFrac : List Char → Nat × List Char
  | c0 :: c1 :: rest =>
    if commaOrPeriod c0 && isDig c1 then
      (parseNanoseconds ((c1 :: rest).takeWhile isDig), (c1 :: rest).dropWhile isDig)
    else (0, c0 :: c1 :: rest)
  | v => (0, v)

/-- The `stdISO8601ColonTZ` case of `time.parse` (`Z07:00`): `Z`, or a sign
and `hh:mm` with `hh <= 24` and `mm <= 60`; the result is the offset in
seconds. -/
def getZone : List Char → Option (Int × List Char)
  | [] => none
  | 'Z' :: rest => some (0, rest)
  | sign :: h0 :: h1 :: colon :: m0 :: m1 :: rest =>
    if colon ≠ ':' then none
    else
      match getnum [h0, h1] true with
      | none => none
      | some (hr, _) =>
        match getnum [m0, m1] true with
        | none => none
        | some (mm, _) =>
          if hr > 24 then none
          else if mm > 60 then none
          else if sign = '+' then some ((((hr * 60 + mm) * 60 : Nat) : Int), rest)
          else if sign = '-' then some (-(((hr * 60 + mm) * 60 : Nat) : Int), rest)
          else none
  | _ => none

/-- Go `time.isLeap`. -/
def isLeap (year : Nat) : Bool := year % 4 = 0 && (year % 100 ≠ 0 || year % 400 = 0)

/-- Go `time.daysIn`. -/
def daysIn (month year : Nat) : Nat :=
  if month = 2 then (if isLeap year then 29 else 28)
  else if month = 4 ∨ month = 6 ∨ month = 9 ∨ month = 11 then 30
  else 31

/-- Go `time.Parse(time.RFC3339, value)`, layout `2006-01-02T15:04:05Z07:00`:
`none` is a returned error. -/
def parseRFC3339 (value : List Char) : Option Time := do
  let (year, v) ← getYear value
  let v ← skipLit '-' v
  let (month, v) ← getnum v true
  if month = 0 ∨ 12 < month then none else
  let v ← skipLit '-' v
  let (day, v) ← getnum v true
  let v ← skipLit 'T' v
  let (hour, v) ← getnum v false
  if 24 ≤ hour then none else
  let v ← skipLit ':' v
  let (min, v) ← getnum v true
  if 60 ≤ min then none else
  let v ← skipLit ':' v
  let (sec, v) ← getnum v true
  if 60 ≤ sec then none else
  let (nsec, v) := getFrac v
  let (zoneOffset, v) ← getZone v
  if v ≠ [] then none else
  if day < 1 ∨ day > daysIn month year then none else
  pure { year := year, month := month, day := day, hour := hour, min := min, sec := sec,
         nsec := nsec, zoneOffset := zoneOffset }

/-- The pair `(Time, error)` of `time.Parse(time.RFC3339, value)`; the error
is kept as a flag. -/
def timeParse (value : String) : Time × Bool :=
  match parseRFC3339 value.data with
  | some t => (t, false)
  | none => (Time.zero, true)

/-- Go `time.appendInt` on a non-negative value: the two fast paths for
widths 2 and 4, and the general zero-padded decimal. -/
def appendInt (x width : Nat) : List Char :=
  if width = 2 ∧ x < 100 then
    [Nat.digitChar (x / 10), Nat.digitChar (x % 10)]
  else if width = 4 ∧ x < 10000 then
    [Nat.digitChar (x / 1000), Nat.digitChar (x / 100 % 10), Nat.digitChar (x / 10 % 10),
     Nat.digitChar (x % 10)]
  else
    List.replicate (width - (Nat.toDigits 10 x).length) '0' ++ Nat.toDigits 10 x

/-- Go `t.Format("2006/01/02")`. -/
def Time.Format (t : Time) : String :=
  String.mk (appendInt t.year 4 ++ '/' :: appendInt t.month 2 ++ '/' :: appendInt t.day 2)

/-- Go `fmt.Sprintf("%d", n)` on a non-negative `int`. -/
def sprintfD (n : Nat) : String := toString n

/-! ## `genPostList` -/

/-- The `for i, post := range posts` loop of `genPostList`, from index `i`
with the rows appended so far. -/
def genPostListLoop : List Post → Nat → List (List String) → List (List String)
  | [], _, postList => postList
  | post :: rest, i, postList =>
    let draftStatus := if post.Draft then "True" else "False"
    let datetime := (timeParse post.Date).1
    let date := datetime.Format
    genPostListLoop rest (i + 1) (postList ++ [[sprintfD (i + 1), date, post.Title, draftStatus]])

/-- Go `genPostList`: the headings and one row per post. -/
def genPostList (blog : Blog) : List String × List (List String) :=
  let posts := blog.Posts
  let headings := ["#", "Date", "Title", "Draft"]
  (headings, genPostListLoop posts 0 [])

/-! ## Timestamps as text (the vocabulary of the claims about dates) -/

/-- Zero-padded decimal of width `w`: the `w` low decimal digits of `n`, most
significant first. -/
def padDecimal (w n : Nat) : List Char :=
  (List.range w).map (fun k => Nat.digitChar (n / 10 ^ (w - 1 - k) % 10))

/-- Zone designator of an ISO 8601 time of day: none (local time), `Z`, or a
signed offset `hh:mm`. -/
inductive ZoneDesignator where
  | localTime
  | utc
  | offset (negative : Bool) (hh mm : Nat)
deriving DecidableEq, Repr

/-- Fields of a calendar date and time of day in ISO 8601 extended format,
`YYYY-MM-DDThh:mm:ss`, an optional decimal fraction of the second, and the
zone designator. -/
structure Timestamp where
  Y : Nat
  M : Nat
  D : Nat
  h : Nat
  mi : Nat
  s : Nat
  frac : List (Fin 10)
  zone : ZoneDesignator
deriving DecidableEq, Repr

/-- Text of a zone designator. -/
def ZoneDesignator.text : ZoneDesignator → List Char
  | .localTime => []
  | .utc => ['Z']
  | .offset negative hh mm =>
    (if negative then '-' else '+') :: (padDecimal 2 hh ++ ':' :: padDecimal 2 mm)

/-- Range condition of a zone designator: offsets are `00:00` to `23:59`. -/
def ZoneDesignator.valid : ZoneDesignator → Prop
  | .offset _ hh mm => hh ≤ 23 ∧ mm ≤ 59
  | _ => True

instance (z : ZoneDesignator) : Decidable z.valid := by
  cases z <;> simp only [ZoneDesignator.valid] <;> infer_instance

/-- Text of the fraction of the second: nothing, or a period and the digits. -/
def fracText (frac : List (Fin 10)) : List Char :=
  match frac with
  | [] => []
  | d :: ds => '.' :: (d :: ds).map (fun x => Nat.digitChar x.val)

/-- Text of a timestamp. -/
def Timestamp.text (f : Timestamp) : List Char :=
  padDecimal 4 f.Y ++ '-' :: (padDecimal 2 f.M ++ '-' :: (padDecimal 2 f.D ++ 'T' ::
    (padDecimal 2 f.h ++ ':' :: (padDecimal 2 f.mi ++ ':' :: (padDecimal 2 f.s ++
      (fracText f.frac ++ f.zone.text))))))

/-- Range conditions of a timestamp: a year of four digits, a day that exists
in the Gregorian calendar, and a time of day up to `23:59:59`. -/
def Timestamp.valid (f : Timestamp) : Prop :=
  f.Y ≤ 9999 ∧ 1 ≤ f.M ∧ f.M ≤ 12 ∧ 1 ≤ f.D ∧ f.D ≤ daysIn f.M f.Y ∧
  f.h ≤ 23 ∧ f.mi ≤ 59 ∧ f.s ≤ 59 ∧ f.zone.valid

instance (f : Timestamp) : Decidable f.valid := by
  unfold Timestamp.valid; infer_instance

/-- An ISO 8601 timestamp (extended format, calendar date and time of day)
that denotes calendar year `Y`, month `M` and day `D`. -/
def IsISO8601 (s : String) (Y M D : Nat) : Prop :=
  ∃ f : Timestamp, f.valid ∧ s = String.mk f.text ∧ f.Y = Y ∧ f.M = M ∧ f.D = D

/-- An RFC 3339 timestamp, the profile of ISO 8601 in which the zone
designator is mandatory, that denotes calendar year `Y`, month `M`, day `D`. -/
def IsRFC3339 (s : String) (Y M D : Nat) : Prop :=
  ∃ f : Timestamp, f.valid ∧ f.zone ≠ ZoneDesignator.localTime ∧
    s = String.mk f.text ∧ f.Y = Y ∧ f.M = M ∧ f.D = D

/-- The text `YYYY/MM/DD` of a calendar date, zero-padded to 4, 2 and 2 digits. -/
def slashDate (Y M D : Nat) : String :=
  String.mk (padDecimal 4 Y ++ '/' :: (padDecimal 2 M ++ '/' :: padDecimal 2 D))

/-- A post dated with an ISO 8601 local time, without zone designator. -/
def localTimePost : Post :=
  { Title := "Hello", Date := "2021-03-04T10:20:30", Draft := false, Path := "content/posts/hello.md" }

/-- A post dated with an RFC 3339 timestamp. -/
def zonedPost : Post :=
  { Title := "World", Date := "2021-03-04T10:20:30+02:00", Draft := true, Path := "content/posts/world.md" }

/-! ## Go library: `strconv.Atoi`, and the 64-bit `int` -/

/-- Largest value of a 64-bit Go `int`. -/
def maxInt : Int := 9223372036854775807

/-- Smallest value of a 64-bit Go `int`. -/
def minInt : Int := -9223372036854775808

/-- Result of `int` arithmetic, wrapped to 64 bits as Go does. -/
def wrapInt (x : Int) : Int :=
  (x + 9223372036854775808) % 18446744073709551616 - 9223372036854775808

/-- Errors that the library calls of `pneuma.go` return. -/
inductive GoError where
  | badText
  | valueRange
  | exitStatus (code : Nat)
  | spawnFailure (reason : String)
  | fileFailure (reason : String)
  | jsonFailure (reason : String)
deriving DecidableEq, Repr

/-- What a Go `panic` carries: the error handed to `panic(e)` by `check`, or
the run-time error of an index out of range. -/
inductive Panic where
  | error (e : GoError)
  | indexOutOfRange (index : Int) (length : Nat)
deriving DecidableEq, Repr

/-- Equality of outcomes (a value or a panic) is decidable. -/
instance decEqExcept {ε α : Type} [DecidableEq ε] [DecidableEq α] : DecidableEq (Except ε α)
  | Except.ok a, Except.ok b =>
    if h : a = b then isTrue (congrArg Except.ok h)
    else isFalse (fun h2 => h (Except.ok.inj h2))
  | Except.error a, Except.error b =>
    if h : a = b then isTrue (congrArg Except.error h)
    else isFalse (fun h2 => h (Except.error.inj h2))
  | Except.ok _, Except.error _ => isFalse (fun h => Except.noConfusion h)
  | Except.error _, Except.ok _ => isFalse (fun h => Except.noConfusion h)

/-- Largest value of a Go `uint64`. -/
def maxUint64 : Nat := 18446744073709551615

/-- The loop of Go `strconv.ParseUint(s, 10, 64)`: a byte that is not a
decimal digit is `ErrSyntax` with value 0, and a value that no longer fits
64 bits is `ErrRange` with the largest value, whichever comes first. -/
def parseUintLoop : Nat → List Char → Nat × Option GoError
  | n, [] => (n, none)
  | n, c :: cs =>
    if isDig c then
      if n * 10 + digVal c > maxUint64 then (maxUint64, some GoError.valueRange)
      else parseUintLoop (n * 10 + digVal c) cs
    else (0, some GoError.badText)

/-- Go `strconv.ParseUint(s, 10, 64)`: the empty text is `ErrSyntax`. -/
def ParseUint (s : List Char) : Nat × Option GoError :=
  match s with
  | [] => (0, some GoError.badText)
  | c :: cs => parseUintLoop 0 (c :: cs)

/-- Go `strconv.ParseInt(s, 10, 0)` with a 64-bit `int`: an optional sign,
then `ParseUint`; a value outside the `int` range is `ErrRange` with the
nearest bound. -/
def ParseInt (s : List Char) : Int × Option GoError :=
  match s with
  | [] => (0, some GoError.badText)
  | c :: rest =>
    let neg : Bool := decide (c = '-')
    let s1 := if c = '+' ∨ c = '-' then rest else c :: rest
    let r := ParseUint s1
    if r.2 = some GoError.badText then (0, some GoError.badText)
    else if neg = false ∧ r.1 ≥ 9223372036854775808 then (maxInt, some GoError.valueRange)
    else if neg = true ∧ r.1 > 9223372036854775808 then (minInt, some GoError.valueRange)
    else ((if neg then -(r.1 : Int) else (r.1 : Int)), none)

/-- Go `strconv.Atoi`, which is `ParseInt(s, 10, 0)`; its fast path for
short texts computes the same result. -/
def Atoi (s : String) : Int × Option GoError := ParseInt s.data

/-! ## `check`, `getSelection`, `siteSelect` -/

/-- Go `check`: panic with the error when it is not nil. -/
def check (e : Option GoError) : Except Panic Unit :=
  match e with
  | some err => Except.error (Panic.error err)
  | none => Except.ok ()

/-- Go `getSelection`; `input` is the line that `ui.WaitForInput()` returns. -/
def getSelection (input : String) (max : Int) : Except Panic Int :=
  let selection : Int := 0
  let (choice, err) := Atoi input
  if err = none then
    let choice := wrapInt (choice - 1)
    if choice > 0 ∧ choice ≤ max then
      Except.ok choice
    else
      match check err with
      | Except.error p => Except.error p
      | Except.ok _ => Except.ok selection
  else
    Except.ok selection

/-- Go slice indexing `sites[i]` with its run-time bounds check. -/
def indexSite (sites : List HugoSite) (i : Int) : Except Panic HugoSite :=
  if 0 ≤ i then
    match sites.get? i.toNat with
    | some site => Except.ok site
    | none => Except.error (Panic.indexOutOfRange i sites.length)
  else Except.error (Panic.indexOutOfRange i sites.length)

/-- Go `siteSelect`, after the table and the prompt are drawn: the selection
read from `input` indexes `config.Sites`, and `Load` stands for `hugo.Load`. -/
def siteSelect (config : PneumaConfig) (Load : String → Blog) (input : String) :
    Except Panic Blog :=
  let sitesList := config.Sites.map (fun site => [site.Name, site.Path])
  match getSelection input sitesList.length with
  | Except.error p => Except.error p
  | Except.ok siteSelect =>
    match indexSite config.Sites siteSelect with
    | Except.error p => Except.error p
    | Except.ok site => Except.ok (Load site.Path)

/-- A decimal integer as text: an optional sign and at least one decimal digit. -/
def IsDecimalInteger (s : String) : Prop :=
  ∃ (sign digits : List Char), (sign = [] ∨ sign = ['-'] ∨ sign = ['+']) ∧
    digits ≠ [] ∧ (∀ c ∈ digits, isDig c = true) ∧ s.data = sign ++ digits

/-- A configuration with two sites. -/
def twoSites : PneumaConfig :=
  { Extension := "md", Editor := "vim",
    Sites := [{ Name := "blog", Path := "/srv/blog" }, { Name := "notes", Path := "/srv/notes" }] }

/-! ## The terminal and `startEditor` -/

/-- The three standard streams of this process, `os.Stdin`, `os.Stdout` and
`os.Stderr`. -/
inductive Stream where
  | stdin
  | stdout
  | stderr
deriving DecidableEq, Repr

/-- Go `exec.Cmd`, the fields that the source of `startEditor` determines: the
argument list and the three streams; a stream that is `none` is Go `nil`,
which `Run` connects to the null device.  The field `Path`, which
`exec.Command` fills with the name or, for a name without path separator,
with what `LookPath` finds on the file system, is not part of this record. -/
structure Cmd where
  Args : List String
  Stdin : Option Stream
  Stdout : Option Stream
  Stderr : Option Stream
deriving DecidableEq, Repr

/-- Go `exec.Command(name, arg...)`: `Args` is the name as given followed by
the arguments, and no stream is set. -/
def execCommand (name : String) (arg : List String) : Cmd :=
  { Args := name :: arg, Stdin := none, Stdout := none, Stderr := none }

/-- What happens to the terminal, in order: a suspension, a child run (with
the flag telling whether the terminal was released when it ran), a
resumption. -/
inductive Event where
  | suspend
  | run (cmd : Cmd) (terminalReleased : Bool)
  | resume
deriving DecidableEq, Repr

/-- The terminal as `pneuma.go` acts on it: the suspension flag of the
screen state and the events so far. -/
structure World where
  suspended : Bool
  trace : List Event
deriving DecidableEq, Repr

/-- Modelled from the spec: `ui.Suspend()` of package `internal/ui`, which
releases exclusive terminal control and succeeds on a healthy terminal. -/
def uiSuspend (w : World) : World :=
  { suspended := true, trace := w.trace ++ [Event.suspend] }

/-- Modelled from the spec: `ui.Resume()` of package `internal/ui`, which
reacquires raw control and succeeds on a healthy terminal. -/
def uiResume (w : World) : World :=
  { suspended := false, trace := w.trace ++ [Event.resume] }

/-- Go `editorCmd.Run()`: the child runs to its end and the error, if any,
is returned; `outcome` is what the operating system makes of the command. -/
def cmdRun (outcome : Cmd → Option GoError) (cmd : Cmd) (w : World) : Option GoError × World :=
  (outcome cmd, { w with trace := w.trace ++ [Event.run cmd w.suspended] })

/-- The command that `startEditor` builds, lines 123 to 125. -/
def editorCommand (config : PneumaConfig) (path : String) : Cmd :=
  let editorCmd := execCommand config.Editor [path]
  let editorCmd := { editorCmd with Stdin := some Stream.stdin }
  let editorCmd := { editorCmd with Stdout := some Stream.stdout }
  editorCmd

/-- Go `startEditor`: the result is the normal return or the panic, and the
terminal afterwards. -/
def startEditor (config : PneumaConfig) (outcome : Cmd → Option GoError) (path : String)
    (w : World) : Except Panic Unit × World :=
  let editorCmd := editorCommand config path
  let w := uiSuspend w
  let (err, w) := cmdRun outcome editorCmd w
  let w := uiResume w
  (check err, w)

/-! ## The command registry of `main` and `siteOverview` -/

/-- Go `libui.CommandKey`: key, rune and modifier, compared field by field. -/
structure CommandKey where
  Key : Nat
  Rune : Char
  Mod : Nat
deriving DecidableEq, Repr

/-- The callbacks that `pneuma.go` binds. -/
inductive Callback where
  | quit
  | tableNextItem
  | tablePreviousItem
  | editPost
  | siteSynchronise
  | newPost
  | deletePost
deriving DecidableEq, Repr

/-- Go `libui.Command`. -/
structure Command where
  Callback : Callback
  Description : String
deriving DecidableEq, Repr

/-- Go `map[libui.CommandKey]libui.Command`: at most one entry per key. -/
abbrev CommandMap := List (CommandKey × Command)

/-- Go `cmds[k] = c`: replaces the entry of `k` or adds one. -/
def CommandMap.set (m : CommandMap) (k : CommandKey) (c : Command) : CommandMap :=
  if m.any (fun e => decide (e.1 = k)) then
    m.map (fun e => if e.1 = k then (k, c) else e)
  else m ++ [(k, c)]

/-- Go `cmds[k]`, with the presence flag as `Option`. -/
def CommandMap.get (m : CommandMap) (k : CommandKey) : Option Command :=
  (m.find? (fun e => decide (e.1 = k))).map (fun e => e.2)

/-- The registry that `main` installs, lines 49 to 56; the arguments are the
constants `tcell.KeyRune` and `tcell.ModNone`. -/
def mainCommands (KeyRune ModNone : Nat) : CommandMap :=
  let quitCmdEventKey : CommandKey := { Key := KeyRune, Rune := 'q', Mod := ModNone }
  let cmds : CommandMap := []
  let cmds := cmds.set quitCmdEventKey { Callback := Callback.quit, Description := "Quit" }
  cmds

/-- The registry that `siteOverview` installs, lines 174 to 191; the
arguments are the constants `tcell.KeyRune`, `tcell.KeyEnter` and
`tcell.ModNone`. -/
def siteOverviewCommands (KeyRune KeyEnter ModNone : Nat) : CommandMap :=
  let nextCmdEventKey : CommandKey := { Key := KeyRune, Rune := 'j', Mod := ModNone }
  let prevCmdEventKey : CommandKey := { Key := KeyRune, Rune := 'k', Mod := ModNone }
  let quitCmdEventKey : CommandKey := { Key := KeyRune, Rune := 'q', Mod := ModNone }
  let enterCmdEventKey : CommandKey := { Key := KeyEnter, Rune := Char.ofNat 13, Mod := ModNone }
  let syncCmdEventKey : CommandKey := { Key := KeyRune, Rune := 's', Mod := ModNone }
  let newCmdEventKey : CommandKey := { Key := KeyRune, Rune := 'n', Mod := ModNone }
  let deleteCmdEventKey : CommandKey := { Key := KeyRune, Rune := 'd', Mod := ModNone }
  let cmds : CommandMap := []
  let cmds := cmds.set quitCmdEventKey { Callback := Callback.quit, Description := "Quit" }
  let cmds := cmds.set nextCmdEventKey
    { Callback := Callback.tableNextItem, Description := "Next item" }
  let cmds := cmds.set prevCmdEventKey
    { Callback := Callback.tablePreviousItem, Description := "Prev item" }
  let cmds := cmds.set enterCmdEventKey { Callback := Callback.editPost, Description := "Edit post" }
  let cmds := cmds.set syncCmdEventKey { Callback := Callback.siteSynchronise, Description := "Sync" }
  let cmds := cmds.set newCmdEventKey
    { Callback := Callback.newPost, Description := "Create a new post" }
  let cmds := cmds.set deleteCmdEventKey
    { Callback := Callback.deletePost, Description := "Delete a post" }
  cmds

/-- Value of `tcell.KeyRune` in tcell v2. -/
def tcellKeyRune : Nat := 256

/-- Value of `tcell.KeyEnter` in tcell v2, the carriage return. -/
def tcellKeyEnter : Nat := 13

/-- Value of `tcell.ModNone` in tcell v2. -/
def tcellModNone : Nat := 0

/-! ## `readConfig` and the choice of the site in `main` -/

/-- Go `json.Unmarshal(data, &v)`: `checkValid` scans the bytes first and a
failure is returned with `v` untouched; otherwise `decode` fills `v` and
may still return an error. -/
def jsonUnmarshal (checkValid : List UInt8 → Option GoError)
    (decode : List UInt8 → PneumaConfig → PneumaConfig × Option GoError)
    (data : List UInt8) (v : PneumaConfig) : PneumaConfig × Option GoError :=
  match checkValid data with
  | some err => (v, some err)
  | none => decode data v

/-- Go `readConfig`: `fileSystem path` is the result of `os.Open(path)` and,
for a file that opens, of `ioutil.ReadAll`.  The result is a panic or the
returned pair of configuration and error. -/
def readConfig (checkValid : List UInt8 → Option GoError)
    (decode : List UInt8 → PneumaConfig → PneumaConfig × Option GoError)
    (fileSystem : String → Except GoError (Except GoError (List UInt8))) (path : String) :
    Except Panic (PneumaConfig × Option GoError) :=
  let conf : PneumaConfig := { Extension := "", Editor := "", Sites := [] }
  match fileSystem path with
  | Except.error err => Except.error (Panic.error err)
  | Except.ok configFile =>
    match configFile with
    | Except.error err => Except.error (Panic.error err)
    | Except.ok byteValue =>
      let (conf, _) := jsonUnmarshal checkValid decode byteValue conf
      Except.ok (conf, none)

/-- Go `main`, lines 58 to 63: the site is chosen by `siteSelect` when the
configuration has more than one, and is `config.Sites[0]` otherwise. -/
def mainSite (config : PneumaConfig) (Load : String → Blog) (input : String) :
    Except Panic Blog :=
  if config.Sites.length > 1 then
    siteSelect config Load input
  else
    match indexSite config.Sites 0 with
    | Except.error p => Except.error p
    | Except.ok site => Except.ok (Load site.Path)

end Pneuma

namespace Pneuma

/-! ## Theorems -/

theorem genPostListLoop_length (posts : List Post) (i : Nat) (acc : List (List String)) :
    (genPostListLoop posts i acc).length = acc.length + posts.length := by
  induction posts generalizing i acc with
  | nil => simp [genPostListLoop]
  | cons p rest ih =>
    simp only [genPostListLoop, ih, List.length_append, List.length_cons, List.length_nil]
    omega

theorem genPostListLoop_keeps_rows (posts : List Post) (i : Nat) (acc : List (List String))
    (k : Nat) (hk : k < acc.length) :
    (genPostListLoop posts i acc)[k]? = acc[k]? := by
  induction posts generalizing i acc with
  | nil => simp [genPostListLoop]
  | cons p rest ih =>
    simp only [genPostListLoop]
    rw [ih _ _ (by simp; omega)]
    exact List.getElem?_append_left hk

theorem genPostListLoop_row (posts : List Post) (i : Nat) (acc : List (List String))
    (k : Nat) (post : Post) (hk : posts[k]? = some post) :
    (genPostListLoop posts i acc)[acc.length + k]? =
      some [sprintfD (i + k + 1), ((timeParse post.Date).1).Format, post.Title,
            if post.Draft then "True" else "False"] := by
  induction posts generalizing i acc k with
  | nil => simp at hk
  | cons p rest ih =>
    cases k with
    | zero =>
      simp only [List.getElem?_cons_zero, Option.some.injEq] at hk
      subst hk
      simp only [genPostListLoop, Nat.add_zero]
      rw [genPostListLoop_keeps_rows _ _ _ _ (by simp)]
      simp
    | succ k =>
      simp only [List.getElem?_cons_succ] at hk
      simp only [genPostListLoop]
      have h := ih (i + 1) (acc ++ [[sprintfD (i + 1), ((timeParse p.Date).1).Format, p.Title,
            if p.Draft then "True" else "False"]]) k hk
      simp only [List.length_append, List.length_cons, List.length_nil] at h
      have e1 : acc.length + (0 + 1) + k = acc.length + (k + 1) := by omega
      have e2 : i + 1 + k + 1 = i + (k + 1) + 1 := by omega
      rw [e1, e2] at h
      exact h

/-- C1: for every blog, `genPostList` returns the headings `#`, `Date`,
`Title`, `Draft` and exactly one row per post, in post order; row `i` has
four cells, as many as there are headings: the decimal rendering of `i+1`,
the formatted date, the title of post `i` unchanged, and `True` for a draft
and `False` otherwise. -/
theorem genPostList_rows (blog : Blog) :
    (genPostList blog).1 = ["#", "Date", "Title", "Draft"] ∧
    (genPostList blog).2.length = blog.Posts.length ∧
    ∀ i : Fin blog.Posts.length,
      ∃ cell0 cell1 cell2 cell3 : String,
        (genPostList blog).2[i.val]? = some [cell0, cell1, cell2, cell3] ∧
        [cell0, cell1, cell2, cell3].length = (genPostList blog).1.length ∧
        cell0 = toString (i.val + 1) ∧
        cell1 = ((timeParse (blog.Posts.get i).Date).1).Format ∧
        cell2 = (blog.Posts.get i).Title ∧
        cell3 = (if (blog.Posts.get i).Draft then "True" else "False") := by
  refine ⟨rfl, ?_, ?_⟩
  · simp [genPostList, genPostListLoop_length]
  · intro i
    have hk : blog.Posts[i.val]? = some (blog.Posts.get i) := by
      simp [List.getElem?_eq_getElem i.isLt]
    have h := genPostListLoop_row blog.Posts 0 [] i.val (blog.Posts.get i) hk
    simp only [List.length_nil, Nat.zero_add] at h
    exact ⟨_, _, _, _, h, rfl, rfl, rfl, rfl, rfl⟩

example : (genPostList ⟨[localTimePost, zonedPost]⟩).2 =
    [["1", "0001/01/01", "Hello", "False"], ["2", "2021/03/04", "World", "True"]] := by
  decide

/-! ### Digits -/

theorem isDig_digitChar (k : Nat) (h : k < 10) : isDig (Nat.digitChar k) = true := by
  interval_cases k <;> rfl

theorem digVal_digitChar (k : Nat) (h : k < 10) : digVal (Nat.digitChar k) = k := by
  interval_cases k <;> rfl

theorem padDecimal_two (n : Nat) :
    padDecimal 2 n = [Nat.digitChar (n / 10 % 10), Nat.digitChar (n % 10)] := by
  simp [padDecimal, List.range_succ]

theorem padDecimal_four (n : Nat) :
    padDecimal 4 n = [Nat.digitChar (n / 1000 % 10), Nat.digitChar (n / 100 % 10),
      Nat.digitChar (n / 10 % 10), Nat.digitChar (n % 10)] := by
  simp [padDecimal, List.range_succ]

theorem appendInt_two (n : Nat) (h : n < 100) : appendInt n 2 = padDecimal 2 n := by
  have e : n / 10 % 10 = n / 10 := Nat.mod_eq_of_lt (by omega)
  simp [appendInt, padDecimal_two, h, e]

theorem appendInt_four (n : Nat) (h : n < 10000) : appendInt n 4 = padDecimal 4 n := by
  have e : n / 1000 % 10 = n / 1000 := Nat.mod_eq_of_lt (by omega)
  simp [appendInt, padDecimal_four, h, e]

theorem getnum_padDecimal (n : Nat) (h : n < 100) (rest : List Char) (fixed : Bool) :
    getnum (padDecimal 2 n ++ rest) fixed = some (n, rest) := by
  have h1 : n / 10 % 10 < 10 := Nat.mod_lt _ (by omega)
  have h2 : n % 10 < 10 := Nat.mod_lt _ (by omega)
  have e : n / 10 % 10 * 10 + n % 10 = n := by omega
  simp [padDecimal_two, getnum, isDig_digitChar, digVal_digitChar, h1, h2, e]

theorem getYear_padDecimal (n : Nat) (h : n < 10000) (rest : List Char) :
    getYear (padDecimal 4 n ++ rest) = some (n, rest) := by
  have h0 : n / 1000 % 10 < 10 := Nat.mod_lt _ (by omega)
  have h1 : n / 100 % 10 < 10 := Nat.mod_lt _ (by omega)
  have h2 : n / 10 % 10 < 10 := Nat.mod_lt _ (by omega)
  have h3 : n % 10 < 10 := Nat.mod_lt _ (by omega)
  have e : n / 1000 % 10 * 1000 + n / 100 % 10 * 100 + n / 10 % 10 * 10 + n % 10 = n := by omega
  simp [padDecimal_four, getYear, isDig_digitChar, digVal_digitChar, h0, h1, h2, h3, e]

/-! ### `time.Parse` on the text of a timestamp -/

theorem skipLit_cons (c : Char) (rest : List Char) : skipLit c (c :: rest) = some rest := by
  simp [skipLit]

theorem dropWhile_isDig_digits (ds : List (Fin 10)) (z : List Char)
    (hz : z.dropWhile isDig = z) :
    (ds.map (fun x => Nat.digitChar x.val) ++ z).dropWhile isDig = z := by
  induction ds with
  | nil => simpa using hz
  | cons d ds ih =>
    simp only [List.map_cons, List.cons_append]
    rw [List.dropWhile_cons, isDig_digitChar d.val d.isLt]
    simpa using ih

theorem zone_text_dropWhile (z : ZoneDesignator) : z.text.dropWhile isDig = z.text := by
  cases z with
  | localTime => rfl
  | utc => rfl
  | offset negative hh mm => cases negative <;> rfl

theorem getFrac_text (frac : List (Fin 10)) (z : ZoneDesignator)
    (hz : z ≠ ZoneDesignator.localTime) :
    ∃ nsec, getFrac (fracText frac ++ z.text) = (nsec, z.text) := by
  cases frac with
  | nil =>
    cases z with
    | localTime => exact absurd rfl hz
    | utc => exact ⟨0, rfl⟩
    | offset negative hh mm =>
      refine ⟨0, ?_⟩
      cases negative <;> simp [fracText, ZoneDesignator.text, padDecimal_two, getFrac, commaOrPeriod]
  | cons d ds =>
    apply Exists.intro
    simp only [fracText, List.map_cons, List.cons_append, getFrac]
    have h1 : commaOrPeriod '.' = true := rfl
    rw [h1, isDig_digitChar d.val d.isLt]
    simp only [Bool.and_self, if_true]
    rw [List.dropWhile_cons, isDig_digitChar d.val d.isLt]
    simp only [if_true]
    rw [dropWhile_isDig_digits ds z.text (zone_text_dropWhile z)]

theorem getZone_text (z : ZoneDesignator) (hv : z.valid)
    (hz : z ≠ ZoneDesignator.localTime) :
    ∃ off, getZone z.text = some (off, []) := by
  cases z with
  | localTime => exact absurd rfl hz
  | utc => exact ⟨0, rfl⟩
  | offset negative hh mm =>
    obtain ⟨h1, h2⟩ := hv
    have g1 : getnum [Nat.digitChar (hh / 10 % 10), Nat.digitChar (hh % 10)] true
        = some (hh, []) := by
      have := getnum_padDecimal hh (by omega) [] true
      simpa [padDecimal_two] using this
    have g2 : getnum [Nat.digitChar (mm / 10 % 10), Nat.digitChar (mm % 10)] true
        = some (mm, []) := by
      have := getnum_padDecimal mm (by omega) [] true
      simpa [padDecimal_two] using this
    have n1 : ¬ hh > 24 := by omega
    have n2 : ¬ mm > 60 := by omega
    cases negative
    · apply Exists.intro
      simp only [ZoneDesignator.text, padDecimal_two, Bool.false_eq_true, if_false,
        List.cons_append, List.nil_append]
      unfold getZone
      simp [g1, g2, n1, n2]
      rfl
    · apply Exists.intro
      simp only [ZoneDesignator.text, padDecimal_two, if_true,
        List.cons_append, List.nil_append]
      unfold getZone
      simp [g1, g2, n1, n2]
      rfl

theorem daysIn_le (month year : Nat) : daysIn month year ≤ 31 := by
  unfold daysIn
  split_ifs <;> omega

theorem parseRFC3339_text (f : Timestamp) (hv : f.valid)
    (hz : f.zone ≠ ZoneDesignator.localTime) :
    ∃ t, parseRFC3339 f.text = some t ∧ t.year = f.Y ∧ t.month = f.M ∧ t.day = f.D := by
  obtain ⟨hY, hM1, hM2, hD1, hD2, hh, hmi, hs, hzv⟩ := hv
  have hD3 := daysIn_le f.M f.Y
  obtain ⟨nsec, hfrac⟩ := getFrac_text f.frac f.zone hz
  obtain ⟨off, hzone⟩ := getZone_text f.zone hzv hz
  refine ⟨{ year := f.Y, month := f.M, day := f.D, hour := f.h, min := f.mi, sec := f.s,
            nsec := nsec, zoneOffset := off }, ?_, rfl, rfl, rfl⟩
  have c1 : ¬ (f.M = 0 ∨ 12 < f.M) := by omega
  have c2 : ¬ (24 ≤ f.h) := by omega
  have c3 : ¬ (60 ≤ f.mi) := by omega
  have c4 : ¬ (60 ≤ f.s) := by omega
  have c5 : ¬ (f.D < 1 ∨ f.D > daysIn f.M f.Y) := by omega
  simp only [parseRFC3339, Timestamp.text]
  rw [getYear_padDecimal f.Y (by omega)]
  simp only [Option.bind_eq_bind, Option.some_bind, skipLit_cons]
  rw [getnum_padDecimal f.M (by omega)]
  simp only [Option.some_bind, skipLit_cons, c1, if_false]
  rw [getnum_padDecimal f.D (by omega)]
  simp only [Option.some_bind, skipLit_cons]
  rw [getnum_padDecimal f.h (by omega)]
  simp only [Option.some_bind, skipLit_cons, c2, if_false]
  rw [getnum_padDecimal f.mi (by omega)]
  simp only [Option.some_bind, skipLit_cons, c3, if_false]
  rw [getnum_padDecimal f.s (by omega)]
  simp only [Option.some_bind, skipLit_cons, c4, if_false, hfrac, hzone, c5]
  simp

theorem slashDate_length (Y M D : Nat) : (slashDate Y M D).length = 10 := by
  simp [slashDate, String.length, padDecimal_four, padDecimal_two]

theorem format_of_rfc3339 (date : String) (Y M D : Nat) (h : IsRFC3339 date Y M D) :
    ((timeParse date).1).Format = slashDate Y M D := by
  obtain ⟨f, hv, hz, hs, hY, hM, hD⟩ := h
  obtain ⟨t, ht, tY, tM, tD⟩ := parseRFC3339_text f hv hz
  obtain ⟨vY, _, vM, _, vD, _⟩ := hv
  have hD3 := daysIn_le f.M f.Y
  subst hs
  simp only [timeParse, ht, Time.Format, tY, tM, tD, slashDate]
  rw [appendInt_four f.Y (by omega), appendInt_two f.M (by omega), appendInt_two f.D (by omega)]
  subst hY hM hD
  simp

/-- C2 (as amended): for every post whose Date is an RFC 3339 timestamp
`YYYY-MM-DDThh:mm:ss`, optional fraction, then `Z` or a signed `hh:mm`,
denoting calendar year Y, month M and day D, the Date cell (cell 1) of the
row of that post is the 10-character text `YYYY/MM/DD`, zero-padded to 4, 2
and 2 digits. -/
theorem genPostList_date_rfc3339 (blog : Blog) (i : Fin blog.Posts.length) (Y M D : Nat)
    (h : IsRFC3339 (blog.Posts.get i).Date Y M D) :
    ∃ row : List String, (genPostList blog).2[i.val]? = some row ∧
      row[1]? = some (slashDate Y M D) ∧ (slashDate Y M D).length = 10 := by
  have hk : blog.Posts[i.val]? = some (blog.Posts.get i) := by
    simp [List.getElem?_eq_getElem i.isLt]
  have hrow := genPostListLoop_row blog.Posts 0 [] i.val (blog.Posts.get i) hk
  simp only [List.length_nil, Nat.zero_add] at hrow
  refine ⟨_, hrow, ?_, slashDate_length Y M D⟩
  have hf := format_of_rfc3339 _ Y M D h
  simp only [List.getElem?_cons_succ, List.getElem?_cons_zero, hf]

/-- Witness of C2 (as amended): the second post of a two-post blog is dated
`2021-03-04T10:20:30+02:00` and its Date cell is `2021/03/04`. -/
theorem genPostList_date_rfc3339_witness :
    IsRFC3339 zonedPost.Date 2021 3 4 ∧
    ∃ row : List String, (genPostList ⟨[localTimePost, zonedPost]⟩).2[1]? = some row ∧
      row[1]? = some (slashDate 2021 3 4) ∧ (slashDate 2021 3 4).length = 10 :=
  have hw : IsRFC3339 zonedPost.Date 2021 3 4 :=
    ⟨{ Y := 2021, M := 3, D := 4, h := 10, mi := 20, s := 30, frac := [],
       zone := ZoneDesignator.offset false 2 0 }, by decide, by decide, by decide, rfl, rfl, rfl⟩
  ⟨hw, genPostList_date_rfc3339 ⟨[localTimePost, zonedPost]⟩ ⟨1, by decide⟩ 2021 3 4 hw⟩

/-- C2 (counterexample): `2021-03-04T10:20:30` is an ISO 8601 timestamp, a
local time without zone designator, denoting 2021, March, 4; the Date cell
of a post so dated is `0001/01/01`, not `2021/03/04`. -/
theorem genPostList_date_iso8601_localTime :
    IsISO8601 localTimePost.Date 2021 3 4 ∧
    (genPostList ⟨[localTimePost]⟩).2[0]? = some ["1", "0001/01/01", "Hello", "False"] ∧
    "0001/01/01" ≠ slashDate 2021 3 4 :=
  ⟨⟨{ Y := 2021, M := 3, D := 4, h := 10, mi := 20, s := 30, frac := [],
      zone := ZoneDesignator.localTime }, by decide, by decide, rfl, rfl, rfl⟩,
   by decide, by decide⟩

/-! ### `getSelection` -/

theorem parseUintLoop_toDigitsCore (fuel n : Nat) (ds : List Char) (h : n < fuel)
    (hn : n ≤ maxUint64) :
    parseUintLoop 0 (Nat.toDigitsCore 10 fuel n ds) = parseUintLoop n ds := by
  induction fuel generalizing n ds with
  | zero => omega
  | succ fuel ih =>
    have hd : n % 10 < 10 := Nat.mod_lt _ (by omega)
    simp only [Nat.toDigitsCore]
    split_ifs with h0
    · have e : n % 10 = n := by omega
      have hlt : n < 10 := by omega
      have hnot : ¬ (n > maxUint64) := by omega
      simp [parseUintLoop, isDig_digitChar, digVal_digitChar, hlt, e, hnot]
    · rw [ih (n / 10) _ (by omega) (by omega)]
      have e : n / 10 * 10 + n % 10 = n := by omega
      have hnot : ¬ (n > maxUint64) := by omega
      simp [parseUintLoop, isDig_digitChar, digVal_digitChar, hd, e, hnot]

theorem toDigitsCore_head (fuel n : Nat) (ds : List Char) (h : n < fuel) :
    ∃ d rest, d < 10 ∧ Nat.toDigitsCore 10 fuel n ds = Nat.digitChar d :: rest := by
  induction fuel generalizing n ds with
  | zero => omega
  | succ fuel ih =>
    simp only [Nat.toDigitsCore]
    split_ifs with h0
    · exact ⟨n % 10, ds, Nat.mod_lt _ (by omega), rfl⟩
    · exact ih (n / 10) _ (by omega)

theorem isDig_not_sign (c : Char) (h : isDig c = true) : ¬ (c = '+' ∨ c = '-') := by
  rintro (rfl | rfl) <;> exact absurd h (by decide)

theorem parseUintLoop_cases (l : List Char) (acc : Nat) :
    ((parseUintLoop acc l).2 = none ∧ ∀ c ∈ l, isDig c = true) ∨
    (parseUintLoop acc l).2 = some GoError.badText ∨
    ((parseUintLoop acc l).2 = some GoError.valueRange ∧ (parseUintLoop acc l).1 = maxUint64) := by
  induction l generalizing acc with
  | nil => simp [parseUintLoop]
  | cons c cs ih =>
    simp only [parseUintLoop]
    split_ifs with hc hov
    · exact Or.inr (Or.inr ⟨rfl, rfl⟩)
    · rcases ih (acc * 10 + digVal c) with ⟨h1, h2⟩ | h | h
      · refine Or.inl ⟨h1, ?_⟩
        intro x hx
        rcases List.mem_cons.mp hx with rfl | hx
        · exact hc
        · exact h2 x hx
      · exact Or.inr (Or.inl h)
      · exact Or.inr (Or.inr h)
    · exact Or.inr (Or.inl rfl)

theorem Atoi_toString (k : Nat) (h : (k : Int) ≤ maxInt) :
    Atoi (toString k) = ((k : Int), none) := by
  have hdata : (toString k).data = Nat.toDigitsCore 10 (k + 1) k [] := rfl
  obtain ⟨d, rest, hd, hrest⟩ := toDigitsCore_head (k + 1) k [] (by omega)
  simp only [maxInt] at h
  have hparse := parseUintLoop_toDigitsCore (k + 1) k [] (by omega)
    (by simp only [maxUint64]; omega)
  rw [hrest] at hparse
  have hns := isDig_not_sign _ (isDig_digitChar d hd)
  have hneg : ¬ (Nat.digitChar d = '-') := fun e => hns (Or.inr e)
  have hk : ¬ (k ≥ 9223372036854775808) := by omega
  unfold Atoi ParseInt
  rw [hdata, hrest]
  simp only [hns, if_false, ParseUint, hparse]
  simp [parseUintLoop, hneg, hk]

theorem ParseUint_cases (l : List Char) :
    ((ParseUint l).2 = none ∧ l ≠ [] ∧ ∀ c ∈ l, isDig c = true) ∨
    (ParseUint l).2 = some GoError.badText ∨
    ((ParseUint l).2 = some GoError.valueRange ∧ (ParseUint l).1 = maxUint64) := by
  cases l with
  | nil => exact Or.inr (Or.inl rfl)
  | cons c cs =>
    simp only [ParseUint]
    rcases parseUintLoop_cases (c :: cs) 0 with ⟨h1, h2⟩ | h | h
    · exact Or.inl ⟨h1, by simp, h2⟩
    · exact Or.inr (Or.inl h)
    · exact Or.inr (Or.inr h)

theorem ParseInt_error (c : Char) (rest : List Char)
    (hu : (ParseUint (if c = '+' ∨ c = '-' then rest else c :: rest)).2 =
            some GoError.badText ∨
          ((ParseUint (if c = '+' ∨ c = '-' then rest else c :: rest)).2 =
            some GoError.valueRange ∧
           (ParseUint (if c = '+' ∨ c = '-' then rest else c :: rest)).1 = maxUint64)) :
    (ParseInt (c :: rest)).2 ≠ none := by
  unfold ParseInt
  simp only
  generalize ParseUint (if c = '+' ∨ c = '-' then rest else c :: rest) = r at hu
  rcases hu with hb | ⟨hr, hm⟩
  · simp [hb]
  · by_cases hc : c = '-' <;> simp [hr, hm, hc, maxUint64]

theorem Atoi_not_decimal (input : String) (h : ¬ IsDecimalInteger input) :
    (Atoi input).2 ≠ none := by
  unfold Atoi
  cases hdata : input.data with
  | nil => simp [ParseInt]
  | cons c rest =>
    apply ParseInt_error
    rcases ParseUint_cases (if c = '+' ∨ c = '-' then rest else c :: rest)
      with ⟨_, hne, hall⟩ | hb | hr
    · exfalso
      apply h
      by_cases hs : c = '+' ∨ c = '-'
      · simp only [hs, if_true] at hne hall
        refine ⟨[c], rest, ?_, hne, hall, by simp [hdata]⟩
        rcases hs with rfl | rfl <;> simp
      · simp only [hs, if_false] at hne hall
        exact ⟨[], c :: rest, Or.inl rfl, hne, hall, by simp [hdata]⟩
    · exact Or.inl hb
    · exact Or.inr hr

theorem wrapInt_of_range (x : Int) (h1 : minInt ≤ x) (h2 : x ≤ maxInt) : wrapInt x = x := by
  simp only [minInt, maxInt] at h1 h2
  unfold wrapInt
  omega

/-- C7: for every `max` that is an `int`, in particular every `max >= 1`, the
input line that is the decimal rendering of an integer `k` with
`1 <= k <= max` makes `getSelection` return `k - 1`, and every input line
that is not a decimal integer, the empty line included, makes it return 0. -/
theorem getSelection_choice (max : Int) (hint : max ≤ maxInt) :
    (∀ k : Nat, 1 ≤ k → (k : Int) ≤ max →
      getSelection (toString k) max = Except.ok ((k : Int) - 1)) ∧
    (∀ input : String, ¬ IsDecimalInteger input → getSelection input max = Except.ok 0) := by
  constructor
  · intro k hk1 hk2
    have hw : wrapInt ((k : Int) - 1) = (k : Int) - 1 :=
      wrapInt_of_range _ (by simp only [minInt]; omega) (by omega)
    unfold getSelection
    rw [Atoi_toString k (by omega)]
    simp only [if_true, hw]
    by_cases h1 : k = 1
    · subst h1
      simp [check]
    · have hc : (k : Int) - 1 > 0 ∧ (k : Int) - 1 ≤ max := by omega
      simp only [hc, and_self, if_true]
  · intro input hnot
    have herr := Atoi_not_decimal input hnot
    unfold getSelection
    rcases hA : Atoi input with ⟨choice, err⟩
    rw [hA] at herr
    simp only at herr
    simp [herr]

/-- Witness of C7: with three sites the line `2` selects index 1, and the
empty line and the line `two` select index 0. -/
theorem getSelection_choice_witness :
    getSelection (toString 2) 3 = Except.ok (((2 : Nat) : Int) - 1) ∧
    getSelection "" 3 = Except.ok 0 ∧ getSelection "two" 3 = Except.ok 0 :=
  have h := getSelection_choice 3 (by decide)
  have e : ¬ IsDecimalInteger "" := by
    rintro ⟨sign, digits, _, hne, _, hd⟩
    have hl := congrArg List.length hd
    cases digits with
    | nil => exact hne rfl
    | cons d ds =>
      simp at hl
      omega
  have t : ¬ IsDecimalInteger "two" := by
    rintro ⟨sign, digits, hs, hne, hall, hd⟩
    have hd2 : ['t', 'w', 'o'] = sign ++ digits := hd
    rcases hs with rfl | rfl | rfl
    · cases digits with
      | nil => exact hne rfl
      | cons d ds =>
        simp only [List.nil_append, List.cons.injEq] at hd2
        have := hall d (by simp)
        rw [← hd2.1] at this
        exact absurd this (by decide)
    · simp at hd2
    · simp at hd2
  ⟨h.1 2 (by decide) (by decide), h.2 "" e, h.2 "two" t⟩

theorem getSelection_le_max (input : String) (max : Int) (hmax : 0 ≤ max) :
    ∃ r, getSelection input max = Except.ok r ∧ 0 ≤ r ∧ r ≤ max := by
  unfold getSelection
  rcases Atoi input with ⟨choice, err⟩
  cases err with
  | some e => exact ⟨0, by simp, le_refl 0, hmax⟩
  | none =>
    simp only [if_true]
    by_cases hc : wrapInt (choice - 1) > 0 ∧ wrapInt (choice - 1) ≤ max
    · exact ⟨wrapInt (choice - 1), by simp only [hc, and_self, if_true], le_of_lt hc.1, hc.2⟩
    · exact ⟨0, by simp only [hc, if_false, check], le_refl 0, hmax⟩

/-- C3 (evaluation at the failing input): with two sites the line `3` is
outside the valid range 1..2, yet `getSelection 2` returns 2, which is not
below `max`, and `siteSelect` then indexes `config.Sites[2]` out of range. -/
theorem getSelection_past_last_site :
    getSelection "3" 2 = Except.ok 2 ∧ ¬ ((2 : Int) < 2) ∧
    siteSelect twoSites (fun _ => ⟨[]⟩) "3" = Except.error (Panic.indexOutOfRange 2 2) := by
  decide

/-! ### `startEditor` -/

/-- C4: for every path and every outcome of the child process, `startEditor`
performs exactly one Suspend, then exactly one child run, then exactly one
Resume, in that order; the child runs with the terminal released, and
whether `startEditor` returns or panics the terminal is not suspended
afterwards. -/
theorem startEditor_suspend_run_resume (config : PneumaConfig)
    (outcome : Cmd → Option GoError) (path : String) (w : World) :
    (startEditor config outcome path w).2.trace =
      w.trace ++ [Event.suspend, Event.run (editorCommand config path) true, Event.resume] ∧
    (startEditor config outcome path w).2.suspended = false := by
  simp [startEditor, uiSuspend, cmdRun, uiResume]

/-- C5 (what the code does): the argument list of the child process of
`startEditor` is the configured editor followed by the one argument `path`,
its standard input and standard output are those of this process, and its
standard error is left unset, which `Run` connects to the null device. -/
theorem editorCommand_streams (config : PneumaConfig) (path : String) :
    (editorCommand config path).Args = [config.Editor, path] ∧
    (editorCommand config path).Stdin = some Stream.stdin ∧
    (editorCommand config path).Stdout = some Stream.stdout ∧
    (editorCommand config path).Stderr = none ∧
    (editorCommand config path).Stderr ≠ some Stream.stderr := by
  simp [editorCommand, execCommand]

/-- C6: `startEditor` panics exactly when running the child returns an error,
the panic value being that error, and returns normally exactly when the
child run succeeds. -/
theorem startEditor_panics_iff (config : PneumaConfig) (outcome : Cmd → Option GoError)
    (path : String) (w : World) :
    (∀ p : Panic, (startEditor config outcome path w).1 = Except.error p ↔
      ∃ e, outcome (editorCommand config path) = some e ∧ p = Panic.error e) ∧
    ((startEditor config outcome path w).1 = Except.ok () ↔
      outcome (editorCommand config path) = none) := by
  simp only [startEditor, cmdRun]
  cases h : outcome (editorCommand config path) with
  | none => simp [check]
  | some e =>
    simp only [check, Option.some.injEq, reduceCtorEq, iff_false, not_false_eq_true, and_true,
      Except.error.injEq]
    intro p
    constructor
    · intro hp
      exact ⟨e, rfl, hp.symm⟩
    · rintro ⟨e2, he, hp⟩
      rw [hp, he]

/-! ### The command registry -/

/-- C9: the registry that `siteOverview` installs has exactly seven bindings,
one for each of the seven chords (rune q, j, k, s, n, d and Enter, without
modifier), which are pairwise distinct, so that no binding overwrites
another; j is bound to NextItem, k to PreviousItem and q to quit; and the
registry that `main` installs before has the quit chord alone. -/
theorem siteOverviewCommands_bindings (KeyRune KeyEnter ModNone : Nat) :
    (siteOverviewCommands KeyRune KeyEnter ModNone).length = 7 ∧
    ((siteOverviewCommands KeyRune KeyEnter ModNone).map (fun e => e.1)).Nodup ∧
    (siteOverviewCommands KeyRune KeyEnter ModNone).map (fun e => e.1) =
      [⟨KeyRune, 'q', ModNone⟩, ⟨KeyRune, 'j', ModNone⟩, ⟨KeyRune, 'k', ModNone⟩,
       ⟨KeyEnter, Char.ofNat 13, ModNone⟩, ⟨KeyRune, 's', ModNone⟩, ⟨KeyRune, 'n', ModNone⟩,
       ⟨KeyRune, 'd', ModNone⟩] ∧
    (siteOverviewCommands KeyRune KeyEnter ModNone).get ⟨KeyRune, 'j', ModNone⟩ =
      some ⟨Callback.tableNextItem, "Next item"⟩ ∧
    (siteOverviewCommands KeyRune KeyEnter ModNone).get ⟨KeyRune, 'k', ModNone⟩ =
      some ⟨Callback.tablePreviousItem, "Prev item"⟩ ∧
    (siteOverviewCommands KeyRune KeyEnter ModNone).get ⟨KeyRune, 'q', ModNone⟩ =
      some ⟨Callback.quit, "Quit"⟩ ∧
    mainCommands KeyRune ModNone = [(⟨KeyRune, 'q', ModNone⟩, ⟨Callback.quit, "Quit"⟩)] := by
  have c13 : ∀ c : Char, c.toNat ≠ 13 → c ≠ Char.ofNat 13 := by
    intro c hc h
    exact hc (by rw [h]; rfl)
  refine ⟨?_, ?_, ?_, ?_, ?_, ?_, ?_⟩ <;>
    simp [siteOverviewCommands, mainCommands, CommandMap.set, CommandMap.get, c13]

example : (siteOverviewCommands tcellKeyRune tcellKeyEnter tcellModNone).length = 7 := by decide

/-! ### `readConfig` -/

/-- C10: `readConfig` never returns a non-nil error; for a file that opens
and is read it returns, whatever the bytes, with the error nil; and when the
bytes are not valid JSON the decoding failure is discarded and the returned
configuration has an empty site list, for which the single-site branch of
`main` indexes `Sites[0]` out of range. -/
theorem readConfig_error_nil (checkValid : List UInt8 → Option GoError)
    (decode : List UInt8 → PneumaConfig → PneumaConfig × Option GoError)
    (fileSystem : String → Except GoError (Except GoError (List UInt8))) (path : String)
    (byteValue : List UInt8) (hfile : fileSystem path = Except.ok (Except.ok byteValue)) :
    (∀ (fs : String → Except GoError (Except GoError (List UInt8))) (conf : PneumaConfig)
        (err : Option GoError),
      readConfig checkValid decode fs path = Except.ok (conf, err) → err = none) ∧
    (∃ conf, readConfig checkValid decode fileSystem path = Except.ok (conf, none)) ∧
    (∀ e, checkValid byteValue = some e →
      ∃ conf, readConfig checkValid decode fileSystem path = Except.ok (conf, none) ∧
        conf.Sites = [] ∧
        ∀ (Load : String → Blog) (input : String),
          mainSite conf Load input = Except.error (Panic.indexOutOfRange 0 0)) := by
  refine ⟨?_, ?_, ?_⟩
  · intro fs conf err h
    unfold readConfig at h
    cases h1 : fs path with
    | error e => simp [h1] at h
    | ok configFile =>
      cases configFile with
      | error e => simp [h1] at h
      | ok bytes =>
        simp only [h1, Except.ok.injEq, Prod.mk.injEq] at h
        exact h.2.symm
  · exact ⟨(jsonUnmarshal checkValid decode byteValue
      { Extension := "", Editor := "", Sites := [] }).1, by simp only [readConfig, hfile]⟩
  · intro e he
    refine ⟨(jsonUnmarshal checkValid decode byteValue
      { Extension := "", Editor := "", Sites := [] }).1, by simp only [readConfig, hfile], ?_, ?_⟩
    · simp [jsonUnmarshal, he]
    · intro Load input
      simp [jsonUnmarshal, he, mainSite, indexSite]

/-- Witness of C10: a configuration file whose bytes are `no`, which the
JSON scanner rejects. -/
theorem readConfig_error_nil_witness :
    (∃ conf, readConfig (fun _ => some (GoError.jsonFailure "invalid character"))
        (fun _ v => (v, none)) (fun _ => Except.ok (Except.ok [110, 111]))
        "/home/user/.config/pneuma.json" = Except.ok (conf, none)) ∧
    (∃ conf, readConfig (fun _ => some (GoError.jsonFailure "invalid character"))
        (fun _ v => (v, none)) (fun _ => Except.ok (Except.ok [110, 111]))
        "/home/user/.config/pneuma.json" = Except.ok (conf, none) ∧
      conf.Sites = [] ∧
      ∀ (Load : String → Blog) (input : String),
        mainSite conf Load input = Except.error (Panic.indexOutOfRange 0 0)) :=
  have h := readConfig_error_nil (fun _ => some (GoError.jsonFailure "invalid character"))
    (fun _ v => (v, none)) (fun _ => Except.ok (Except.ok [110, 111]))
    "/home/user/.config/pneuma.json" [110, 111] rfl
  ⟨h.2.1, h.2.2 _ rfl⟩

end Pneuma
